import Mathlib

/-!
Shallow embedding of the heka-s3 output plugin (src/s3_output.go) and
verification of its specification claims.

Go strings are modelled as List Char, byte payloads as List Nat.  The local
filesystem state visible to the plugin is its single spool file, modelled as
Option (List Nat): none means the file does not exist, some bs means it exists
and holds bytes bs.  Fallible OS calls (MkdirAll, Chdir, Create, OpenFile,
Write) are driven by an explicit oracle of Booleans so that every failure path
of the source can be exercised.
-/

namespace HekaS3

/-- A byte string (Go []byte). -/
abbrev Bytes := List Nat

/-- The relevant fields of S3OutputConfig (src/s3_output.go lines 24-34).
String-valued fields are Go strings as List Char; bufferChunkLimit is a Go
int, hence Int. `pfx` stands for the "prefix" config option. -/
structure Config where
  bucket : List Char
  pfx : List Char
  bufferPath : List Char
  compression : Bool
  bufferChunkLimit : Int
deriving DecidableEq

/-- The mutable state the plugin manipulates: the in-memory bytes.Buffer that
Run allocates, and the spool file at so.bufferFilePath (none = absent). -/
structure St where
  buffer : Bytes
  spool : Option Bytes
deriving DecidableEq

/-- Bytes held by the spool file; an absent file holds nothing. -/
def spoolBytes : Option Bytes → Bytes
  | none => []
  | some bs => bs

/-- Outcome oracle for the OS calls SaveToDisk makes, in source order:
os.Stat(BufferPath) (dirExists), os.MkdirAll, os.Chdir, os.Create,
os.OpenFile, and the appending f.Write.  A write either appends all bytes or
fails appending none. -/
structure FS where
  dirExists : Bool
  mkdirOk : Bool
  chdirOk : Bool
  createOk : Bool
  openOk : Bool
  writeOk : Bool
deriving DecidableEq

/-- The oracle under which every OS call succeeds. -/
def FS.allOk : FS :=
  { dirExists := true, mkdirOk := true, chdirOk := true,
    createOk := true, openOk := true, writeOk := true }

/-- Result of SaveToDisk: the state it leaves behind and the error it
returns, if any. -/
structure SaveResult where
  st : St
  err : Option (List Char)
deriving DecidableEq

/-- Model of SaveToDisk (src/s3_output.go lines 150-188).  Control flow in
source order: stat the staging directory and MkdirAll when absent; Chdir into
it; stat the spool file and Create an empty one when absent (so a later
failure can leave an empty file behind); OpenFile for append; Write the whole
buffer.  Only after the write succeeds is the buffer Reset. -/
def saveToDisk (fs : FS) (st : St) : SaveResult :=
  if !fs.dirExists && !fs.mkdirOk then ⟨st, some "MkdirAll failed".data⟩
  else if !fs.chdirOk then ⟨st, some "Chdir failed".data⟩
  else
    match st.spool with
    | none =>
      if !fs.createOk then ⟨st, some "Create failed".data⟩
      else
        -- os.Create succeeded: the spool file now exists, empty
        if !fs.openOk then ⟨⟨st.buffer, some []⟩, some "OpenFile failed".data⟩
        else if !fs.writeOk then ⟨⟨st.buffer, some []⟩, some "Write failed".data⟩
        else ⟨⟨[], some st.buffer⟩, none⟩
    | some s =>
      if !fs.openOk then ⟨st, some "OpenFile failed".data⟩
      else if !fs.writeOk then ⟨st, some "Write failed".data⟩
      else ⟨⟨[], some (s ++ st.buffer)⟩, none⟩

/-- Result of WriteToBuffer: resulting state, returned error, and the buffer
length handed to SaveToDisk when the size trigger fired (none = no spill). -/
structure WriteResult where
  st : St
  err : Option (List Char)
  spilledSize : Option Nat
deriving DecidableEq

/-- Model of WriteToBuffer (src/s3_output.go lines 138-147).
buffer.Write(outBytes) on a bytes.Buffer always succeeds, appending the
payload; then, if buffer.Len() > BufferChunkLimit, SaveToDisk runs. -/
def writeToBuffer (cfg : Config) (fs : FS) (st : St) (payload : Bytes) : WriteResult :=
  let st1 : St := ⟨st.buffer ++ payload, st.spool⟩
  if (st1.buffer.length : Int) > cfg.bufferChunkLimit then
    let r := saveToDisk fs st1
    ⟨r.st, r.err, some st1.buffer.length⟩
  else
    ⟨st1, none, none⟩

/-- Possible outcomes of ReadFromDisk: the file is absent and os.Open fails;
or the file opens and the function faults (see readFromDisk); or it returns
the contents it read (never produced by this code). -/
inductive ReadOutcome
  | ok (contents : Bytes)
  | openErr
  | panicNilBuffer
deriving DecidableEq

/-- Model of ReadFromDisk (src/s3_output.go lines 191-209).  The function
declares the named return value `buffer *bytes.Buffer` and never assigns it,
so it stays nil.  When the spool file opens, the compression branch builds
gzip.NewWriter(buffer) and io.Copy(w, fi) makes the gzip.Writer flush its
stream into that nil pointer; the plain branch's io.Copy(buffer, fi) invokes
(*bytes.Buffer).ReadFrom / Write on the nil receiver directly.  Either way
the first method call on the nil *bytes.Buffer dereferences nil and the
goroutine faults, so the function never returns file contents; with the file
absent, os.Open fails and the error is returned. -/
def readFromDisk (cfg : Config) (st : St) : ReadOutcome :=
  match st.spool with
  | none => ReadOutcome.openErr
  | some _ =>
      if cfg.compression then
        ReadOutcome.panicNilBuffer
      else
        ReadOutcome.panicNilBuffer

/-! ### Dates, times and the upload key -/

/-- A civil-calendar date.  Go's time package uses int years. -/
structure Date where
  year : Int
  month : Nat
  day : Nat
deriving DecidableEq

/-- Go time: leap years in the proleptic Gregorian calendar. -/
def isLeap (y : Int) : Bool :=
  y % 4 == 0 && (y % 100 != 0 || y % 400 == 0)

/-- Length of a month in the Gregorian calendar. -/
def daysInMonth (y : Int) (m : Nat) : Nat :=
  if m = 2 then (if isLeap y then 29 else 28)
  else if m = 4 ∨ m = 6 ∨ m = 9 ∨ m = 11 then 30
  else 31

/-- A date its own calendar can produce: month in 1..12, day in
1..daysInMonth. -/
def ValidDate (d : Date) : Prop :=
  1 ≤ d.month ∧ d.month ≤ 12 ∧ 1 ≤ d.day ∧ d.day ≤ daysInMonth d.year d.month

instance (d : Date) : Decidable (ValidDate d) := by
  unfold ValidDate; infer_instance

/-- Model of t.AddDate(0, 0, -1) on a valid date t: Go re-normalises
time.Date(y, m, d-1, ...), borrowing a month (and possibly a year) when the
day underflows to 0. -/
def addDateYesterday (d : Date) : Date :=
  if 2 ≤ d.day then ⟨d.year, d.month, d.day - 1⟩
  else if 2 ≤ d.month then ⟨d.year, d.month - 1, daysInMonth d.year (d.month - 1)⟩
  else ⟨d.year - 1, 12, 31⟩

/-- Calendar successor of a date (the next day), defined independently of
addDateYesterday; it formalises what "the date of yesterday" means: yesterday
is the date whose next day is today. -/
def nextDay (d : Date) : Date :=
  if d.day < daysInMonth d.year d.month then ⟨d.year, d.month, d.day + 1⟩
  else if d.month < 12 then ⟨d.year, d.month + 1, 1⟩
  else ⟨d.year + 1, 1, 1⟩

/-- Decimal digits of n, zero-padded on the left to width w (Go's zero-padded
time layout fields). -/
def padNum (w : Nat) (n : Nat) : List Char :=
  let s := Nat.toDigits 10 n
  List.replicate (w - s.length) '0' ++ s

/-- Go layout "2006-01-02". -/
def formatDate (d : Date) : List Char :=
  padNum 4 d.year.toNat ++ '-' :: padNum 2 d.month ++ '-' :: padNum 2 d.day

/-- One observation of the wall clock, as the source uses it: the current UTC
date (time.Now().UTC()) and the current local date and time-of-day
(time.Now().Local()). -/
structure Instant where
  utcDate : Date
  localDate : Date
  localHour : Nat
  localMin : Nat
  localSec : Nat
deriving DecidableEq

/-- Go layout "2006-01-02_150405" applied to the local time (line 232). -/
def formatLocalStamp (now : Instant) : List Char :=
  formatDate now.localDate ++ '_' :: (padNum 2 now.localHour
    ++ padNum 2 now.localMin ++ padNum 2 now.localSec)

/-- The date component of the upload key (lines 238-242): UTC yesterday for a
midnight-triggered upload, UTC today otherwise. -/
def uploadDate (now : Instant) (isMidnight : Bool) : Date :=
  if isMidnight then addDateYesterday now.utcDate else now.utcDate

/-- The remote key (line 249): Prefix + "/" + currentDate + "/" + currentTime
+ ext, with ext = ".gz" exactly when compression is on (lines 244-247). -/
def uploadPath (cfg : Config) (now : Instant) (isMidnight : Bool) : List Char :=
  cfg.pfx ++ '/' :: (formatDate (uploadDate now isMidnight)
    ++ '/' :: (formatLocalStamp now ++ (if cfg.compression then ".gz".data else [])))

/-- The Content-Type header sent with the put (lines 235, 244-247). -/
def uploadContentType (cfg : Config) : List Char :=
  if cfg.compression then "multipart/x-gzip".data else "text/plain".data

/-- Outcome of one Upload call, carrying the state it leaves behind.
nothingToUpload: the early exit at lines 213-217.  saveFailed / readFailed:
the aborts at lines 219-229.  panicked: the nil-buffer fault inside
ReadFromDisk.  uploaded / putFailed: the paths after bucket.Put (lines
250-257), unreachable because readFromDisk never returns contents. -/
inductive UploadOutcome
  | nothingToUpload (st : St)
  | saveFailed (st : St)
  | readFailed (st : St)
  | panicked (st : St)
  | uploaded (st : St) (key : List Char) (body : Bytes) (contentType : List Char)
  | putFailed (st : St) (key : List Char) (body : Bytes) (contentType : List Char)
deriving DecidableEq

/-- The state an upload outcome leaves behind. -/
def UploadOutcome.state : UploadOutcome → St
  | .nothingToUpload st => st
  | .saveFailed st => st
  | .readFailed st => st
  | .panicked st => st
  | .uploaded st _ _ _ => st
  | .putFailed st _ _ _ => st

/-- Model of Upload (src/s3_output.go lines 212-260).  In source order:
os.Stat the spool file, and fail with "Nothing to upload." when the buffer is
empty and the file absent; SaveToDisk, aborting on error; ReadFromDisk,
aborting on error (both branches of it in fact fault on the nil buffer once
the file opens); compute key and content type; bucket.Put (its success is the
putOk oracle); on put success os.Remove the spool file, on failure leave it.
The file exists at that point, so the Remove is modelled as succeeding. -/
def upload (cfg : Config) (fs : FS) (putOk : Bool) (now : Instant)
    (st : St) (isMidnight : Bool) : UploadOutcome :=
  if st.buffer.length == 0 && st.spool.isNone then
    UploadOutcome.nothingToUpload st
  else
    let r := saveToDisk fs st
    match r.err with
    | some _ => UploadOutcome.saveFailed r.st
    | none =>
      match readFromDisk cfg r.st with
      | ReadOutcome.openErr => UploadOutcome.readFailed r.st
      | ReadOutcome.panicNilBuffer => UploadOutcome.panicked r.st
      | ReadOutcome.ok body =>
          let key := uploadPath cfg now isMidnight
          if putOk then
            UploadOutcome.uploaded ⟨r.st.buffer, none⟩ key body (uploadContentType cfg)
          else
            UploadOutcome.putFailed r.st key body (uploadContentType cfg)

/-! ### The midnight ticker -/

/-- Seconds per day; the tick target is HOUR_TO_TICK = MINUTE_TO_TICK =
SECOND_TO_TICK = 0 (lines 19-21), i.e. midnight UTC.  Instants are modelled
as seconds since the Unix epoch, itself a midnight UTC. -/
def secondsPerDay : Nat := 86400

/-- time.Date(now.Year, now.Month, now.Day, 0, 0, 0, 0, time.UTC) for the UTC
day containing now: the most recent UTC midnight at or before now. -/
def midnightFloor (now : Nat) : Nat := now - now % secondsPerDay

/-- Model of midnightTickerUpdate (src/s3_output.go lines 44-51), returning
the instant the new ticker will first fire: today's midnight, pushed by
INTERVAL_PERIOD = 24h unless it is still strictly after now. -/
def midnightNextTick (now : Nat) : Nat :=
  let nextTick := midnightFloor now
  if ¬ nextTick > now then nextTick + secondsPerDay else nextTick

/-! ### Init's spool path derivation -/

/-- Go strings.Split(s, sep) for a one-character separator. -/
def goSplit (sep : Char) : List Char → List (List Char)
  | [] => [[]]
  | c :: cs =>
      if c = sep then [] :: goSplit sep cs
      else
        match goSplit sep cs with
        | [] => [[c]]
        | g :: gs => (c :: g) :: gs

/-- Go strings.Join(parts, sep). -/
def goJoin (sep : List Char) : List (List Char) → List Char
  | [] => []
  | [g] => g
  | g :: gs => g ++ sep ++ goJoin sep gs

/-- Model of the spool path computation in Init (src/s3_output.go lines
73-75): bufferFilePath = BufferPath + "/" + Bucket +
strings.Join(strings.Split(Prefix, "/"), "_"). -/
def bufferFilePath (cfg : Config) : List Char :=
  let prefixList := goSplit '/' cfg.pfx
  let bufferFileName := cfg.bucket ++ goJoin "_".data prefixList
  cfg.bufferPath ++ '/' :: bufferFileName

/-! ### Event traces of the Run loop -/

/-- One event the plugin state can undergo: a record append (WriteToBuffer,
with its possible inner spill), a direct spill (SaveToDisk), or an upload
attempt driven by either ticker. -/
inductive Ev
  | write (payload : Bytes) (fs : FS)
  | spill (fs : FS)
  | up (fs : FS) (putOk : Bool) (now : Instant) (isMidnight : Bool)

/-- The state after processing one event. -/
def step (cfg : Config) (st : St) : Ev → St
  | Ev.write p fs => (writeToBuffer cfg fs st p).st
  | Ev.spill fs => (saveToDisk fs st).st
  | Ev.up fs putOk now mid => (upload cfg fs putOk now st mid).state

/-- The state after processing a list of events in order. -/
def run (cfg : Config) (st : St) : List Ev → St
  | [] => st
  | e :: es => run cfg (step cfg st e) es

/-- The payload an event appends to the buffer.  buffer.Write on a
bytes.Buffer always succeeds, so every written payload is accepted, even when
the spill the append triggers then fails. -/
def acceptedOf : Ev → Bytes
  | Ev.write p _ => p
  | Ev.spill _ => []
  | Ev.up _ _ _ _ => []

/-- Concatenation of all payloads accepted along a trace, in arrival order. -/
def accepted (evs : List Ev) : Bytes := (evs.map acceptedOf).flatten

/-- SaveToDisk moves bytes but never invents or drops them: the concatenation
spool-then-buffer is preserved, on success and on every failure path. -/
theorem saveToDisk_concat (fs : FS) (st : St) :
    spoolBytes (saveToDisk fs st).st.spool ++ (saveToDisk fs st).st.buffer
      = spoolBytes st.spool ++ st.buffer := by
  rcases st with ⟨b, sp⟩
  cases sp <;> simp only [saveToDisk] <;> split_ifs <;> simp [spoolBytes]

/-- WriteToBuffer appends the payload at the tail of the spool-then-buffer
concatenation, whatever the spill oracle does. -/
theorem writeToBuffer_concat (cfg : Config) (fs : FS) (st : St) (p : Bytes) :
    spoolBytes (writeToBuffer cfg fs st p).st.spool ++ (writeToBuffer cfg fs st p).st.buffer
      = spoolBytes st.spool ++ (st.buffer ++ p) := by
  simp only [writeToBuffer]
  split_ifs with h
  · rw [saveToDisk_concat]
  · simp

/-- ReadFromDisk never returns contents: the file is either absent (open
error) or present (nil-buffer fault). -/
theorem readFromDisk_never_ok (cfg : Config) (st : St) (b : Bytes) :
    readFromDisk cfg st ≠ ReadOutcome.ok b := by
  rcases st with ⟨bu, sp⟩
  cases sp <;> simp [readFromDisk]

/-- The state an upload attempt leaves behind is the input state on the
early exit and the post-SaveToDisk state otherwise: the success branch that
would empty it is unreachable because ReadFromDisk never returns contents. -/
theorem upload_state_eq (cfg : Config) (fs : FS) (putOk : Bool) (now : Instant)
    (st : St) (mid : Bool) :
    (upload cfg fs putOk now st mid).state
      = if st.buffer.length == 0 && st.spool.isNone then st else (saveToDisk fs st).st := by
  simp only [upload]
  split
  · rfl
  · split
    · rfl
    · split
      · rfl
      · rfl
      · rename_i body heq
        exact absurd heq (readFromDisk_never_ok cfg (saveToDisk fs st).st body)

/-- One event preserves the spool-then-buffer concatenation up to the bytes
it accepts. -/
theorem step_concat (cfg : Config) (st : St) (e : Ev) :
    spoolBytes (step cfg st e).spool ++ (step cfg st e).buffer
      = spoolBytes st.spool ++ st.buffer ++ acceptedOf e := by
  cases e with
  | write p fs =>
      simp only [step, acceptedOf]
      rw [writeToBuffer_concat, List.append_assoc]
  | spill fs =>
      simp only [step, acceptedOf]
      rw [saveToDisk_concat, List.append_nil]
  | up fs putOk now mid =>
      simp only [step, acceptedOf, List.append_nil, upload_state_eq]
      split_ifs with h
      · rfl
      · exact saveToDisk_concat fs st

/-- Along any trace, spool-then-buffer equals the initial spool-then-buffer
followed by everything accepted. -/
theorem run_concat (cfg : Config) (evs : List Ev) (st : St) :
    spoolBytes (run cfg st evs).spool ++ (run cfg st evs).buffer
      = spoolBytes st.spool ++ st.buffer ++ accepted evs := by
  induction evs generalizing st with
  | nil => simp [run, accepted]
  | cons e es ih =>
      simp only [run]
      rw [ih, step_concat]
      simp [accepted, List.append_assoc]

/-! ### Helper lemmas: calendar and string sanitisation -/

/-- Undoing Go's AddDate(0, 0, -1): the next day of yesterday is today, for
any date the calendar can produce.  This pins down that addDateYesterday
really computes the previous civil day. -/
theorem nextDay_addDateYesterday (d : Date) (h : ValidDate d) :
    nextDay (addDateYesterday d) = d := by
  rcases d with ⟨y, m, day⟩
  obtain ⟨h1, h2, h3, h4⟩ := h
  simp only at h1 h2 h3 h4
  simp only [addDateYesterday]
  split_ifs with hd hm
  · simp only [nextDay]
    rw [if_pos (by omega)]
    simp only [Date.mk.injEq, true_and, and_true]
    omega
  · simp only [nextDay]
    rw [if_neg (by omega), if_pos (by omega)]
    simp only [Date.mk.injEq, true_and, and_true]
    omega
  · have h31 : daysInMonth (y - 1) 12 = 31 := by norm_num [daysInMonth]
    simp only [nextDay]
    rw [if_neg (by rw [h31]; omega), if_neg (by omega)]
    simp only [Date.mk.injEq, true_and, and_true]
    omega

/-- strings.Split never returns the empty list. -/
theorem goSplit_ne_nil (sep : Char) (s : List Char) : goSplit sep s ≠ [] := by
  induction s with
  | nil => simp [goSplit]
  | cons c cs ih =>
      simp only [goSplit]
      split_ifs
      · simp
      · cases h : goSplit sep cs with
        | nil => simp
        | cons g gs => simp

/-- Joining with "_" what was split at sep is exactly the character-wise
replacement of sep by '_': the sanitisation Init performs on the key prefix
is a plain substitution. -/
theorem goJoin_goSplit (sep r : Char) (s : List Char) :
    goJoin [r] (goSplit sep s) = s.map (fun c => if c = sep then r else c) := by
  induction s with
  | nil => rfl
  | cons c cs ih =>
      obtain ⟨g, gs, hg⟩ : ∃ g gs, goSplit sep cs = g :: gs := by
        cases h : goSplit sep cs with
        | nil => exact absurd h (goSplit_ne_nil sep cs)
        | cons g gs => exact ⟨g, gs, rfl⟩
      simp only [goSplit, List.map_cons]
      split_ifs with hc
      · have e1 : goJoin [r] (([] : List Char) :: g :: gs)
            = [r] ++ goJoin [r] (g :: gs) := rfl
        rw [hg, e1, ← hg, ih]
        simp
      · rw [hg]
        cases gs with
        | nil =>
            have e2 : goJoin [r] [g] = g := rfl
            rw [hg] at ih
            rw [e2] at ih
            have e1 : goJoin [r] [c :: g] = c :: g := rfl
            rw [e1, ih]
        | cons g2 t =>
            have e1 : goJoin [r] ((c :: g) :: g2 :: t)
                = (c :: g) ++ [r] ++ goJoin [r] (g2 :: t) := rfl
            have e2 : goJoin [r] (g :: g2 :: t)
                = g ++ [r] ++ goJoin [r] (g2 :: t) := rfl
            rw [hg, e2] at ih
            rw [e1, List.cons_append, List.cons_append, ih]

/-! ### Concrete values used to evaluate the model -/

/-- A small concrete configuration: bucket "b", key prefix "logs", staging
root "/tmp", compression on, chunk limit 2 bytes. -/
def cfgEx : Config := ⟨"b".data, "logs".data, "/tmp".data, true, 2⟩

/-- The same configuration with compression off. -/
def cfgPlain : Config := ⟨"b".data, "logs".data, "/tmp".data, false, 2⟩

/-- The spec's date-partitioning instant: now = 2024-03-02T00:00:01Z, with a
local clock five hours behind UTC, i.e. 2024-03-01 19:00:01 local. -/
def nowEx : Instant := ⟨⟨2024, 3, 2⟩, ⟨2024, 3, 1⟩, 19, 0, 1⟩

/-! ### The claims -/

/-- C1, amended: the durability invariant holds with the concatenation taken
spool-file-first.  Starting from an empty memory buffer and any pre-existing
spool file, after any sequence of record appends, spills and upload attempts,
the spool bytes appended this run followed by the memory buffer contents
equal the concatenation of all successfully-appended payloads, in arrival
order; no accepted byte is dropped or reordered. -/
theorem c1_durability_spool_then_buffer (cfg : Config) (evs : List Ev) (init : Option Bytes) :
    spoolBytes (run cfg ⟨[], init⟩ evs).spool ++ (run cfg ⟨[], init⟩ evs).buffer
      = spoolBytes init ++ accepted evs := by
  have h := run_concat cfg evs ⟨[], init⟩
  simpa using h

/-- C1 counterexample: with chunk limit 2, appending [1, 2, 3] (which
spills) and then [4] leaves the buffer holding [4] and the spool holding
[1, 2, 3]; the claim's order — memory buffer followed by spool contents —
gives [4, 1, 2, 3], not the arrival order [1, 2, 3, 4] of the accepted
payloads. -/
theorem c1_buffer_then_spool_cex :
    (run cfgEx ⟨[], none⟩ [Ev.write [1, 2, 3] FS.allOk, Ev.write [4] FS.allOk]).buffer
        ++ spoolBytes (run cfgEx ⟨[], none⟩
            [Ev.write [1, 2, 3] FS.allOk, Ev.write [4] FS.allOk]).spool
      ≠ accepted [Ev.write [1, 2, 3] FS.allOk, Ev.write [4] FS.allOk] := by decide

/-- C2, code evidence: Upload never reaches the remote put.  With a one-byte
buffer, no spool file yet, and every OS call succeeding, Upload spills and
then faults on ReadFromDisk's nil buffer — identically whether the put would
succeed or fail.  The spool file survives holding the spilled byte, and the
deletion branch is unreachable. -/
theorem c2_upload_panics_before_put :
    upload cfgEx FS.allOk true nowEx ⟨[97], none⟩ false
        = UploadOutcome.panicked ⟨[], some [97]⟩
    ∧ upload cfgEx FS.allOk false nowEx ⟨[97], none⟩ false
        = UploadOutcome.panicked ⟨[], some [97]⟩ := by decide

/-- C3: SaveToDisk is atomic with respect to the memory buffer: every
failure path returns an error and leaves the buffer exactly as it was, and
the buffer is reset to empty (with the spool then holding its old contents
followed by the buffer) exactly when the append write succeeded. -/
theorem c3_saveToDisk_atomic (fs : FS) (st : St) :
    ((saveToDisk fs st).err.isSome → (saveToDisk fs st).st.buffer = st.buffer)
    ∧ ((saveToDisk fs st).err = none
        → (saveToDisk fs st).st.buffer = []
          ∧ (saveToDisk fs st).st.spool = some (spoolBytes st.spool ++ st.buffer)) := by
  rcases st with ⟨b, sp⟩
  cases sp <;> simp only [saveToDisk] <;> split_ifs <;> simp [spoolBytes]

/-- C3 witness: a failing append write leaves buffer [1] untouched; under
the all-ok oracle the buffer is cleared and the spool receives the byte. -/
theorem c3_saveToDisk_atomic_witness :
    (saveToDisk ⟨true, true, true, true, true, false⟩ ⟨[1], none⟩).st.buffer = [1]
    ∧ ((saveToDisk FS.allOk ⟨[1], none⟩).st.buffer = []
        ∧ (saveToDisk FS.allOk ⟨[1], none⟩).st.spool = some (spoolBytes none ++ [1])) :=
  ⟨(c3_saveToDisk_atomic ⟨true, true, true, true, true, false⟩ ⟨[1], none⟩).1 (by decide),
   (c3_saveToDisk_atomic FS.allOk ⟨[1], none⟩).2 (by decide)⟩

/-- C4: Upload returns the "nothing to upload" error, leaving the state
untouched and performing no spill, read, put or deletion, exactly when the
memory buffer is empty and the spool file absent; otherwise it proceeds past
that check. -/
theorem c4_nothing_to_upload (cfg : Config) (fs : FS) (putOk : Bool) (now : Instant)
    (st : St) (mid : Bool) :
    (st.buffer = [] ∧ st.spool = none
      → upload cfg fs putOk now st mid = UploadOutcome.nothingToUpload st)
    ∧ ((st.buffer ≠ [] ∨ st.spool ≠ none)
      → ∀ s, upload cfg fs putOk now st mid ≠ UploadOutcome.nothingToUpload s) := by
  constructor
  · rintro ⟨h1, h2⟩
    simp [upload, h1, h2]
  · intro h s
    have hc : ¬(st.buffer.length == 0 && st.spool.isNone) = true := by
      rcases h with h | h
      · cases hb : st.buffer <;> simp_all
      · cases hsp : st.spool <;> simp_all
    simp only [upload]
    rw [if_neg hc]
    cases herr : (saveToDisk fs st).err with
    | some e => simp [herr]
    | none =>
        cases hr : readFromDisk cfg (saveToDisk fs st).st with
        | ok b => exact absurd hr (readFromDisk_never_ok cfg (saveToDisk fs st).st b)
        | openErr => simp [herr, hr]
        | panicNilBuffer => simp [herr, hr]

/-- C4 witness: with empty buffer and no spool file, Upload reports nothing
to upload; with a one-byte buffer it proceeds past the check. -/
theorem c4_nothing_to_upload_witness :
    upload cfgEx FS.allOk true nowEx ⟨[], none⟩ false
        = UploadOutcome.nothingToUpload ⟨[], none⟩
    ∧ upload cfgEx FS.allOk true nowEx ⟨[7], none⟩ false
        ≠ UploadOutcome.nothingToUpload ⟨[7], none⟩ :=
  ⟨(c4_nothing_to_upload cfgEx FS.allOk true nowEx ⟨[], none⟩ false).1 ⟨rfl, rfl⟩,
   (c4_nothing_to_upload cfgEx FS.allOk true nowEx ⟨[7], none⟩ false).2
      (Or.inl (by decide)) ⟨[7], none⟩⟩

/-- C5: WriteToBuffer hands the buffer to SaveToDisk exactly when the buffer
length after the append strictly exceeds BufferChunkLimit, and the size it
spills is then the whole appended buffer, which is at least (indeed above)
the limit. -/
theorem c5_size_trigger (cfg : Config) (fs : FS) (st : St) (p : Bytes) :
    ((writeToBuffer cfg fs st p).spilledSize.isSome
        ↔ ((st.buffer ++ p).length : Int) > cfg.bufferChunkLimit)
    ∧ (∀ n, (writeToBuffer cfg fs st p).spilledSize = some n
        → cfg.bufferChunkLimit ≤ (n : Int) ∧ n = (st.buffer ++ p).length) := by
  simp only [writeToBuffer]
  split_ifs with h
  · refine ⟨by simpa using h, ?_⟩
    intro n hn
    simp only [Option.some.injEq] at hn
    constructor
    · omega
    · omega
  · refine ⟨by simpa using h, ?_⟩
    intro n hn
    simp at hn

/-- C5 witness: with limit 2, appending three bytes to an empty buffer fires
the trigger and spills all three bytes. -/
theorem c5_size_trigger_witness :
    (writeToBuffer cfgEx FS.allOk ⟨[], none⟩ [9, 9, 9]).spilledSize.isSome
    ∧ (cfgEx.bufferChunkLimit ≤ ((3 : Nat) : Int)
        ∧ (3 : Nat) = (([] : Bytes) ++ [9, 9, 9]).length) :=
  ⟨(c5_size_trigger cfgEx FS.allOk ⟨[], none⟩ [9, 9, 9]).1.mpr (by decide),
   (c5_size_trigger cfgEx FS.allOk ⟨[], none⟩ [9, 9, 9]).2 3 (by decide)⟩

/-- C6: the remote key is prefix / date / local-timestamp with the
compression extension, where the date component is the UTC date — the
previous civil day of it for a midnight-triggered upload, so that its next
day is the current UTC date — and the timestamp is the local wall-clock in
layout YYYY-MM-DD_HHMMSS. -/
theorem c6_upload_key_layout (cfg : Config) (now : Instant) (mid : Bool)
    (h : ValidDate now.utcDate) :
    uploadPath cfg now mid
      = cfg.pfx ++ '/' :: (formatDate (uploadDate now mid)
          ++ '/' :: (formatLocalStamp now ++ (if cfg.compression then ".gz".data else [])))
    ∧ (mid = true → nextDay (uploadDate now mid) = now.utcDate)
    ∧ (mid = false → uploadDate now mid = now.utcDate)
    ∧ formatLocalStamp now
        = formatDate now.localDate ++ '_' :: (padNum 2 now.localHour
            ++ padNum 2 now.localMin ++ padNum 2 now.localSec) := by
  refine ⟨rfl, ?_, ?_, rfl⟩
  · intro hm
    simp only [uploadDate, hm, if_true]
    exact nextDay_addDateYesterday _ h
  · intro hm
    simp [uploadDate, hm]

/-- C6 witness, the spec's date-partitioning example: at UTC date 2024-03-02
(one second past the midnight boundary), the midnight-triggered upload keys
under 2024-03-01, whose next day is 2024-03-02; a non-boundary upload keys
under 2024-03-02 itself. -/
theorem c6_upload_key_layout_witness :
    ValidDate (⟨2024, 3, 2⟩ : Date)
    ∧ nextDay (uploadDate nowEx true) = nowEx.utcDate
    ∧ uploadDate nowEx true = ⟨2024, 3, 1⟩
    ∧ uploadDate nowEx false = ⟨2024, 3, 2⟩ :=
  ⟨by decide, (c6_upload_key_layout cfgEx nowEx true (by decide)).2.1 rfl,
   by decide, by decide⟩

/-- C7, code evidence: with compression enabled and a non-empty spool file,
the read step faults on the nil destination buffer before any bytes exist to
send; no gzip stream is produced and the put (with its ".gz" key and
"multipart/x-gzip" content type) is never performed. -/
theorem c7_compressed_upload_unreachable :
    cfgEx.compression = true
    ∧ readFromDisk cfgEx ⟨[], some [104, 105]⟩ = ReadOutcome.panicNilBuffer
    ∧ upload cfgEx FS.allOk true nowEx ⟨[], some [104, 105]⟩ false
        = UploadOutcome.panicked ⟨[], some [104, 105]⟩ := by decide

/-- C8: the recomputed midnight tick is a strictly future instant: today's
00:00:00 UTC when that is still strictly ahead of now, else the same
time-of-day 24 hours later; it lands on a midnight, and on the earliest
midnight strictly after now. -/
theorem c8_midnight_tick_future (now : Nat) :
    now < midnightNextTick now
    ∧ midnightNextTick now
        = (if now < midnightFloor now then midnightFloor now
           else midnightFloor now + secondsPerDay)
    ∧ midnightNextTick now % secondsPerDay = 0
    ∧ (∀ t, t % secondsPerDay = 0 → now < t → midnightNextTick now ≤ t) := by
  have h1 : midnightNextTick now = midnightFloor now + secondsPerDay := by
    simp only [midnightNextTick]
    rw [if_pos]
    simp only [midnightFloor, secondsPerDay]
    omega
  rw [h1]
  simp only [midnightFloor, secondsPerDay]
  refine ⟨by omega, by split_ifs <;> omega, by omega, fun t ht hlt => by omega⟩

/-- C8 witness: one second before the first UTC midnight after the epoch
plus 99 seconds — i.e. now = 100 — the next tick is the next midnight,
86400. -/
theorem c8_midnight_tick_future_witness :
    100 < midnightNextTick 100 ∧ midnightNextTick 100 ≤ 86400 :=
  ⟨(c8_midnight_tick_future 100).1,
   (c8_midnight_tick_future 100).2.2.2 86400 (by decide) (by decide)⟩

/-- C9, amended: Init derives the spool path as bufferPath + "/" + bucket
followed by the prefix with every '/' replaced by '_'; but the derivation is
not injective over (bucket, prefix): the distinct prefixes "a/b" and "a_b"
(same bucket, same staging root) collide on the same spool path. -/
theorem c9_bufferFilePath_formula (cfg : Config) :
    bufferFilePath cfg
      = cfg.bufferPath ++ '/' :: (cfg.bucket
          ++ cfg.pfx.map (fun c => if c = '/' then '_' else c))
    ∧ bufferFilePath ⟨"b".data, "a/b".data, "r".data, true, 0⟩
        = bufferFilePath ⟨"b".data, "a_b".data, "r".data, true, 0⟩ := by
  constructor
  · have h := goJoin_goSplit '/' '_' cfg.pfx
    simp only [bufferFilePath]
    rw [h]
  · decide

/-- C9 counterexample: two configurations sharing staging root "r" and
bucket "b" but with the different prefixes "a/b" and "a_b" derive the same
spool file path "r/ba_b", refuting injectivity over (bucket, prefix). -/
theorem c9_injectivity_cex :
    bufferFilePath ⟨"b".data, "a/b".data, "r".data, true, 0⟩
      = bufferFilePath ⟨"b".data, "a_b".data, "r".data, true, 0⟩
    ∧ ("a/b".data : List Char) ≠ "a_b".data := by decide

/-- C10, code evidence: whenever the spool file exists, ReadFromDisk's
destination buffer is the never-assigned nil named return value, so for
every configuration, buffer state and file contents the copy faults with the
nil-pointer panic instead of returning the contents. -/
theorem c10_readFromDisk_nil_fault (cfg : Config) (b s : Bytes) :
    readFromDisk cfg ⟨b, some s⟩ = ReadOutcome.panicNilBuffer := by
  simp [readFromDisk]

end HekaS3
